import Mathlib

/-!
Verification of the accident-API repository: a shallow embedding of the
field converters (`model_accident.py`) and of the in-memory
`AccidentManager` (`app.py`), followed by theorems about the embedded
operations.
-/

namespace AccidentAPI

/-- Python's `ValueError`, the only exception the embedded code can raise. -/
inductive PyError where
  | valueError
  deriving Repr, DecidableEq

/-- Numeric value of an ASCII digit character. -/
def digitVal (c : Char) : Nat := c.toNat - 48

/-- Remainder of a Python decimal digit run after the first digit: digits,
with single underscores allowed between digits (CPython `digitpart`
grammar). -/
def pyDigitsRest : Nat → List Char → Option Nat
  | acc, [] => some acc
  | acc, c :: rest =>
    if c = '_' then
      match rest with
      | [] => none
      | c2 :: rest2 =>
        if c2.isDigit then pyDigitsRest (10 * acc + digitVal c2) rest2 else none
    else if c.isDigit then pyDigitsRest (10 * acc + digitVal c) rest
    else none

/-- A Python decimal digit run: at least one digit, underscores allowed
between digits. -/
def pyDigitPart : List Char → Option Nat
  | [] => none
  | c :: rest => if c.isDigit then pyDigitsRest (digitVal c) rest else none

/-- Body of Python `int(s, 10)` after whitespace stripping: optional sign
followed by a digit run. -/
def pyIntCore : List Char → Option Int
  | [] => none
  | c :: rest =>
    if c = '+' then (pyDigitPart rest).map Int.ofNat
    else if c = '-' then (pyDigitPart rest).map (fun n => -(n : Int))
    else (pyDigitPart (c :: rest)).map Int.ofNat

/-- Python `int(s, 10)`: strip surrounding whitespace, then optional sign
and a decimal digit run; `none` models a raised `ValueError`. -/
def pyInt (s : String) : Option Int :=
  pyIntCore (((s.data.dropWhile Char.isWhitespace).reverse.dropWhile
    Char.isWhitespace).reverse)

/-- Embeds `convert_grav` of `model_accident.py`: the if/elif chain mapping
severity codes to the fixed scale, `-1` otherwise. -/
def convert_grav (val : String) : Int :=
  if val = "1" then 1
  else if val = "2" then 100
  else if val = "3" then 10
  else if val = "4" then 5
  else -1

/-- Embeds `convert_annee` of `model_accident.py`: `-1` when the length is
not 4, otherwise `int(val, 10)`, whose `ValueError` propagates. -/
def convert_annee (val : String) : Except PyError Int :=
  if val.length ≠ 4 then Except.ok (-1)
  else
    match pyInt val with
    | some n => Except.ok n
    | none => Except.error PyError.valueError

/-- Base-10 value of a string of decimal digits (most significant first). -/
def decimalValue (s : String) : Nat :=
  s.data.foldl (fun a c => 10 * a + digitVal c) 0

/-- One accident record, as built by `AccidentManager.add_accident`. -/
structure Accident where
  id : Nat
  annee : Int
  gravite : Int
  deriving Repr, DecidableEq

/-- The fitted linear model `gravite = a * annee + b` held in
`AccidentManager.model` after a successful `fit`. -/
structure LinModel where
  a : ℚ
  b : ℚ
  deriving Repr, DecidableEq

/-- The mutable fields of `AccidentManager` (`app.py`, `__init__`). -/
structure Manager where
  accidents : List Accident
  id_counter : Nat
  model : Option LinModel
  deriving Repr, DecidableEq

/-- A fresh `AccidentManager()`: empty list, counter 1, no model. -/
def initManager : Manager := ⟨[], 1, none⟩

/-- Embeds `AccidentManager.add_accident`: build the record from the current
counter, append it, increment the counter, return the record. -/
def add_accident (m : Manager) (annee gravite : Int) : Accident × Manager :=
  let accident : Accident := ⟨m.id_counter, annee, gravite⟩
  (accident, ⟨m.accidents ++ [accident], m.id_counter + 1, m.model⟩)

/-- Python list slicing `l[start:stop]`: negative indices count from the
end, then both bounds are clamped to `[0, len]`. -/
def pySlice {α : Type} (l : List α) (start stop : Int) : List α :=
  let n : Int := l.length
  let norm : Int → Nat := fun i =>
    if i < 0 then (max (i + n) 0).toNat else (min i n).toNat
  (l.take (norm stop)).drop (norm start)

/-- Result dictionary of `AccidentManager.get_all_accidents`. -/
structure ListResult where
  items : List Accident
  total : Nat
  pages : Int
  page : Int
  deriving Repr, DecidableEq

/-- Embeds `AccidentManager.get_all_accidents`: Python slice of the record
list plus the page-count formula `len // per_page + (1 if len % per_page
else 0)`. Python `//` and `%` are floor division and its remainder
(`Int.fdiv` / `Int.fmod`); `none` models the `ZeroDivisionError` raised
when `per_page` is 0. -/
def get_all_accidents (m : Manager) (page per_page : Int) : Option ListResult :=
  let start := (page - 1) * per_page
  let stop := start + per_page
  let items := pySlice m.accidents start stop
  let n : Int := m.accidents.length
  if per_page = 0 then none
  else
    some { items := items
           total := m.accidents.length
           pages := Int.fdiv n per_page + (if Int.fmod n per_page ≠ 0 then 1 else 0)
           page := page }

/-- Python `round` to an integer: round half to even (banker's rounding). -/
def pyRoundHalfEven (q : ℚ) : Int :=
  let f : Int := ⌊q⌋
  let r : ℚ := q - (f : ℚ)
  if r < 1/2 then f
  else if 1/2 < r then f + 1
  else if f % 2 = 0 then f else f + 1

/-- Python `round(x, 2)` on an exact rational: half-even rounding of
`100 * x`, divided back by 100. -/
def round2 (q : ℚ) : ℚ := (pyRoundHalfEven (100 * q) : ℚ) / 100

/-- Result dictionary of `AccidentManager.get_stats`. -/
structure Stats where
  total_accidents : Nat
  annee_moyenne : ℚ
  gravite_moyenne : ℚ
  deriving Repr, DecidableEq

/-- Embeds `AccidentManager.get_stats`: all-zero dictionary on an empty
store, otherwise the two field sums divided by the count and rounded to two
decimal places. -/
def get_stats (m : Manager) : Stats :=
  if m.accidents = [] then ⟨0, 0, 0⟩
  else
    let annee_sum : Int := (m.accidents.map Accident.annee).sum
    let gravite_sum : Int := (m.accidents.map Accident.gravite).sum
    let count : Nat := m.accidents.length
    ⟨count, round2 ((annee_sum : ℚ) / count), round2 ((gravite_sum : ℚ) / count)⟩

/-- Ordinary least squares for the single-feature model fitted by
`LinearRegression.fit`: slope `Σ(x-x̄)(y-ȳ) / Σ(x-x̄)²` (0 when the
denominator vanishes, as the pseudo-inverse gives) and intercept
`ȳ - slope·x̄`. -/
def fitLinReg (xs ys : List ℚ) : LinModel :=
  let n : ℚ := xs.length
  let xbar := xs.sum / n
  let ybar := ys.sum / n
  let sxy := ((xs.zip ys).map (fun p => (p.1 - xbar) * (p.2 - ybar))).sum
  let sxx := (xs.map (fun x => (x - xbar) * (x - xbar))).sum
  let a := if sxx = 0 then 0 else sxy / sxx
  ⟨a, ybar - a * xbar⟩

/-- Embeds `AccidentManager.train_prediction_model`: early return leaving
the state untouched when there are no accidents, otherwise fit a fresh
linear model on the (annee, gravite) columns and store it. -/
def train_prediction_model (m : Manager) : Manager :=
  if m.accidents.length = 0 then m
  else
    let x_annee := m.accidents.map (fun a => ((a.annee : ℚ)))
    let y_gravite := m.accidents.map (fun a => ((a.gravite : ℚ)))
    ⟨m.accidents, m.id_counter, some (fitLinReg x_annee y_gravite)⟩

/-- Return value of `AccidentManager.predict_gravite`: either the
`{"error": ...}` dictionary or the `{annee, gravite_predite}` dictionary. -/
inductive PredictResult where
  | modelNotTrained
  | prediction (annee : Int) (gravite_predite : ℚ)
  deriving Repr, DecidableEq

/-- Embeds `AccidentManager.predict_gravite`: the error dictionary when no
model is stored, otherwise the fitted line evaluated at `annee`, rounded to
two decimal places. -/
def predict_gravite (m : Manager) (annee : Int) : PredictResult :=
  match m.model with
  | none => PredictResult.modelNotTrained
  | some mdl =>
      PredictResult.prediction annee (round2 (mdl.a * (annee : ℚ) + mdl.b))

/-- Python string slice `s[1:-1]`: drop the first and the last character. -/
def stripQuotes (s : String) : String := ⟨(s.data.drop 1).dropLast⟩

/-- A CSV row: one line split on `;`. -/
def Row := List String

/-- Body of the ingestion loop of `AccidentManager.load_data_from_csv` for
one row of length > 8: convert field 8 (year) and field 6 (severity) after
stripping quotes; a `ValueError` from `convert_annee` is caught and the row
skipped; rows whose converted values are not both > -1 are dropped. -/
def loadRow (m : Manager) (d : Row) : Manager :=
  match convert_annee (stripQuotes (d.getD 8 "")) with
  | Except.error _ => m
  | Except.ok annee =>
      let gravite := convert_grav (stripQuotes (d.getD 6 ""))
      if annee > -1 ∧ gravite > -1 then (add_accident m annee gravite).2 else m

/-- The ingestion loop of `AccidentManager.load_data_from_csv` over already
read rows: drop rows of length ≤ 8, then fold `loadRow` over the rest. -/
def loadRows (m : Manager) (rows : List Row) : Manager :=
  (rows.filter (fun d => d.length > 8)).foldl loadRow m

/-- Folds a list of `(annee, gravite)` pairs into the store through
`add_accident`, ignoring the returned records. -/
def addAll (m : Manager) (l : List (Int × Int)) : Manager :=
  l.foldl (fun s p => (add_accident s p.1 p.2).2) m

/-- Records built by a run of adds starting at a given id. -/
def mkAccidents : Nat → List (Int × Int) → List Accident
  | _, [] => []
  | n, (a, g) :: rest => ⟨n, a, g⟩ :: mkAccidents (n + 1) rest

/-- Modelled from the spec: the slice `[(page-1)*per_page, page*per_page)`
of a sequence "clipped to the sequence bounds", read as the set of sequence
positions lying in that half-open integer interval. -/
def specClippedSlice {α : Type} (l : List α) (start stop : Int) : List α :=
  (l.take (max stop 0).toNat).drop (max start 0).toNat

/-- Modelled from the spec: `ceil(total / per_page)` for a positive
`per_page`, as the integer formula `(total + per_page - 1) / per_page`. -/
def specCeilDiv (total per_page : Int) : Int := (total + per_page - 1) / per_page

/-- Arithmetic mean of a list of integers, as a rational. -/
def meanQ (l : List Int) : ℚ := ((l.sum : ℚ)) / (l.length : ℚ)

/-- A concrete store holding the two records (2020, 1) and (2021, 5). -/
def twoAccMgr : Manager := ⟨[⟨1, 2020, 1⟩, ⟨2, 2021, 5⟩], 3, none⟩

/-- A concrete store holding five records, for the pagination examples. -/
def fiveAccMgr : Manager :=
  ⟨mkAccidents 1 [(2020, 1), (2021, 5), (2022, 3), (2023, 4), (2024, 2)], 6, none⟩

/-- C1: `convert_grav` maps "1", "2", "3", "4" to 1, 100, 10, 5 and every
other string, the empty string included, to -1. -/
theorem convert_grav_spec :
    convert_grav "1" = 1 ∧ convert_grav "2" = 100 ∧ convert_grav "3" = 10 ∧
    convert_grav "4" = 5 ∧ convert_grav "" = -1 ∧
    ∀ s : String, s ≠ "1" → s ≠ "2" → s ≠ "3" → s ≠ "4" → convert_grav s = -1 := by
  refine ⟨rfl, rfl, rfl, rfl, rfl, ?_⟩
  intro s h1 h2 h3 h4
  simp [convert_grav, h1, h2, h3, h4]

/-- Witness for C1: the universally quantified fallback clause at the
concrete input "0". -/
theorem convert_grav_spec_witness : convert_grav "0" = -1 :=
  convert_grav_spec.2.2.2.2.2 "0" (by decide) (by decide) (by decide) (by decide)

/-- A decimal digit is not whitespace. -/
lemma isDigit_not_ws {c : Char} (h : c.isDigit = true) : c.isWhitespace = false := by
  rcases Bool.eq_false_or_eq_true c.isWhitespace with hw | hw
  · exfalso
    have hc : ((c = ' ' ∨ c = '\t') ∨ c = '\x0d') ∨ c = '\n' := by
      simpa [Char.isWhitespace] using hw
    rcases hc with ((rfl | rfl) | rfl) | rfl <;> exact absurd h (by decide)
  · exact hw

/-- Dropping leading whitespace from an all-digit character list is the
identity. -/
lemma dropWhile_ws_digits {l : List Char} (h : ∀ c ∈ l, c.isDigit = true) :
    l.dropWhile Char.isWhitespace = l := by
  cases l with
  | nil => rfl
  | cons c rest =>
      rw [List.dropWhile_cons, isDigit_not_ws (h c (List.mem_cons_self c rest))]
      simp

/-- On an all-digit tail, `pyDigitsRest` succeeds and accumulates the
base-10 value. -/
lemma pyDigitsRest_digits :
    ∀ (l : List Char) (acc : Nat), (∀ c ∈ l, c.isDigit = true) →
      pyDigitsRest acc l = some (l.foldl (fun a c => 10 * a + digitVal c) acc) := by
  intro l
  induction l with
  | nil => intro acc _; rfl
  | cons c rest ih =>
      intro acc h
      have hc : c.isDigit = true := h c (List.mem_cons_self c rest)
      have hne : c ≠ '_' := by
        intro hceq
        rw [hceq] at hc
        exact absurd hc (by decide)
      rw [pyDigitsRest.eq_def]
      simp only [hne, hc, if_false, if_true, ite_false, ite_true, List.foldl_cons]
      exact ih (10 * acc + digitVal c) (fun x hx => h x (List.mem_cons_of_mem c hx))

/-- On a nonempty all-digit character list, `pyIntCore` returns the base-10
value. -/
lemma pyIntCore_digits (c : Char) (rest : List Char)
    (h : ∀ x ∈ c :: rest, x.isDigit = true) :
    pyIntCore (c :: rest)
      = some (Int.ofNat ((c :: rest).foldl (fun a x => 10 * a + digitVal x) 0)) := by
  have hc : c.isDigit = true := h c (List.mem_cons_self c rest)
  have hplus : c ≠ '+' := by
    intro hceq; rw [hceq] at hc; exact absurd hc (by decide)
  have hminus : c ≠ '-' := by
    intro hceq; rw [hceq] at hc; exact absurd hc (by decide)
  rw [pyIntCore, if_neg hplus, if_neg hminus, pyDigitPart, if_pos hc,
    pyDigitsRest_digits rest (digitVal c) (fun x hx => h x (List.mem_cons_of_mem c hx))]
  simp [List.foldl_cons]

/-- On an all-digit string, `pyInt` parses the base-10 value. -/
lemma pyInt_digits (s : String) (hne : s.data ≠ [])
    (h : ∀ c ∈ s.data, c.isDigit = true) :
    pyInt s = some (Int.ofNat (decimalValue s)) := by
  have hrev : ∀ c ∈ s.data.reverse, c.isDigit = true := by
    intro c hc; exact h c (List.mem_reverse.mp hc)
  rw [pyInt, dropWhile_ws_digits h, dropWhile_ws_digits hrev, List.reverse_reverse]
  cases hd : s.data with
  | nil => exact absurd hd hne
  | cons c rest =>
      have h2 : ∀ x ∈ c :: rest, x.isDigit = true := by rw [← hd]; exact h
      rw [pyIntCore_digits c rest h2, decimalValue, hd]

/-- C6: `convert_annee` returns -1 on every string whose length is not 4,
returns 2023 on "2023", and on every 4-character string of decimal digits
returns the base-10 value of the digits. -/
theorem convert_annee_spec :
    (∀ s : String, s.length ≠ 4 → convert_annee s = Except.ok (-1)) ∧
    convert_annee "2023" = Except.ok 2023 ∧
    (∀ s : String, s.length = 4 → (∀ c ∈ s.data, c.isDigit = true) →
        convert_annee s = Except.ok (Int.ofNat (decimalValue s))) := by
  refine ⟨?_, by rfl, ?_⟩
  · intro s h
    rw [convert_annee, if_pos h]
  · intro s h4 hd
    have hne : s.data ≠ [] := by
      intro hnil
      rw [String.length, hnil] at h4
      exact absurd h4 (by decide)
    rw [convert_annee, if_neg (by rw [h4]; exact fun hc => hc rfl), pyInt_digits s hne hd]

/-- Witness for C6: the first clause at "20", the third at "2023". -/
theorem convert_annee_spec_witness :
    convert_annee "20" = Except.ok (-1) ∧
    convert_annee "2023" = Except.ok (Int.ofNat (decimalValue "2023")) :=
  ⟨convert_annee_spec.1 "20" (by decide),
   convert_annee_spec.2.2 "2023" (by decide) (by decide)⟩

/-- C10: a 4-character string rejected by `int(, 10)` makes
`convert_annee` raise `ValueError` ("abcd" concretely), and the ingestion
loop skips such a row — dropping it while continuing with the remaining
rows. -/
theorem convert_annee_raises_and_row_skipped :
    (∀ s : String, s.length = 4 → pyInt s = none →
        convert_annee s = Except.error PyError.valueError) ∧
    convert_annee "abcd" = Except.error PyError.valueError ∧
    (∀ (m : Manager) (d : Row) (rows : List Row),
        d.length > 8 →
        convert_annee (stripQuotes (d.getD 8 "")) = Except.error PyError.valueError →
        loadRows m (d :: rows) = loadRows m rows) := by
  refine ⟨?_, by rfl, ?_⟩
  · intro s h4 hpy
    rw [convert_annee, if_neg (by rw [h4]; exact fun hc => hc rfl), hpy]
  · intro m d rows hlen herr
    have hstep : loadRow m d = m := by
      rw [loadRow, herr]
    rw [loadRows, loadRows, List.filter_cons, if_pos (by simpa using hlen),
      List.foldl_cons, hstep]

/-- Witness for C10: the concrete string "abcd" and a concrete over-length
row carrying the year field "abcd", skipped by the loop. -/
theorem convert_annee_raises_and_row_skipped_witness :
    convert_annee "abcd" = Except.error PyError.valueError ∧
    loadRows initManager
        [["a", "b", "c", "d", "e", "f", "\x22A\x22", "h", "\x22abcd\x22"]]
      = loadRows initManager [] :=
  ⟨convert_annee_raises_and_row_skipped.1 "abcd" (by decide) (by rfl),
   convert_annee_raises_and_row_skipped.2.2 initManager
     ["a", "b", "c", "d", "e", "f", "\x22A\x22", "h", "\x22abcd\x22"] []
     (by decide) (by rfl)⟩

/-- C4: `predict_gravite` returns the model-not-trained error whenever no
model is stored, and otherwise evaluates the stored line at the year and
rounds the result to two decimal places. -/
theorem predict_gravite_spec :
    (∀ (m : Manager) (annee : Int), m.model = none →
        predict_gravite m annee = PredictResult.modelNotTrained) ∧
    (∀ (m : Manager) (annee : Int) (mdl : LinModel), m.model = some mdl →
        predict_gravite m annee
          = PredictResult.prediction annee (round2 (mdl.a * (annee : ℚ) + mdl.b))) := by
  constructor
  · intro m annee h
    simp [predict_gravite, h]
  · intro m annee mdl h
    simp [predict_gravite, h]

/-- Witness for C4: a fresh manager reports the error; a manager holding
the line 10·x − 20190 predicts through `round2`. -/
theorem predict_gravite_spec_witness :
    predict_gravite initManager 2023 = PredictResult.modelNotTrained ∧
    predict_gravite ⟨[], 1, some ⟨10, -20190⟩⟩ 2023
      = PredictResult.prediction 2023 (round2 (10 * (2023 : ℚ) + -20190)) :=
  ⟨predict_gravite_spec.1 initManager 2023 rfl,
   predict_gravite_spec.2 ⟨[], 1, some ⟨10, -20190⟩⟩ 2023 ⟨10, -20190⟩ rfl⟩

/-- C7: training on an empty store leaves the manager unchanged; in
particular a previously absent model stays absent. -/
theorem train_prediction_model_empty_noop (m : Manager) (h : m.accidents = []) :
    train_prediction_model m = m ∧
    (m.model = none → (train_prediction_model m).model = none) := by
  have hm : train_prediction_model m = m := by
    simp [train_prediction_model, h]
  exact ⟨hm, fun hn => by rw [hm]; exact hn⟩

/-- Witness for C7: a fresh manager is untouched by training. -/
theorem train_prediction_model_empty_noop_witness :
    train_prediction_model initManager = initManager ∧
    (initManager.model = none → (train_prediction_model initManager).model = none) :=
  train_prediction_model_empty_noop initManager rfl

/-- C5: `get_stats` returns the all-zero dictionary on an empty store and
otherwise the record count with both column means rounded to two decimal
places; on (2020,1), (2021,5) this is {2, 2020.5, 3.0}. -/
theorem get_stats_spec :
    (∀ m : Manager, m.accidents = [] → get_stats m = ⟨0, 0, 0⟩) ∧
    (∀ m : Manager, m.accidents ≠ [] →
        get_stats m = ⟨m.accidents.length,
          round2 (meanQ (m.accidents.map Accident.annee)),
          round2 (meanQ (m.accidents.map Accident.gravite))⟩) ∧
    get_stats twoAccMgr = ⟨2, 4041 / 2, 3⟩ := by
  have hmain : ∀ m : Manager, m.accidents ≠ [] →
      get_stats m = ⟨m.accidents.length,
        round2 (meanQ (m.accidents.map Accident.annee)),
        round2 (meanQ (m.accidents.map Accident.gravite))⟩ := by
    intro m h
    simp only [get_stats, if_neg h, meanQ, List.length_map]
  refine ⟨?_, hmain, ?_⟩
  · intro m h
    simp [get_stats, h]
  · rw [hmain twoAccMgr (by decide)]
    have ha : round2 (meanQ (twoAccMgr.accidents.map Accident.annee)) = 4041 / 2 := by
      norm_num [twoAccMgr, meanQ, round2, pyRoundHalfEven]
    have hg : round2 (meanQ (twoAccMgr.accidents.map Accident.gravite)) = 3 := by
      norm_num [twoAccMgr, meanQ, round2, pyRoundHalfEven]
    rw [ha, hg]
    rfl

/-- Witness for C5: the empty clause at a fresh manager, the nonempty
clause at the two-record store. -/
theorem get_stats_spec_witness :
    get_stats initManager = ⟨0, 0, 0⟩ ∧
    get_stats twoAccMgr = ⟨twoAccMgr.accidents.length,
      round2 (meanQ (twoAccMgr.accidents.map Accident.annee)),
      round2 (meanQ (twoAccMgr.accidents.map Accident.gravite))⟩ :=
  ⟨get_stats_spec.1 initManager rfl, get_stats_spec.2.1 twoAccMgr (by decide)⟩

/-- Each run of adds appends the records built from the successive counter
values. -/
lemma addAll_accidents (l : List (Int × Int)) : ∀ m : Manager,
    (addAll m l).accidents = m.accidents ++ mkAccidents m.id_counter l ∧
    (addAll m l).id_counter = m.id_counter + l.length ∧
    (addAll m l).model = m.model := by
  induction l with
  | nil => intro m; simp [addAll, mkAccidents]
  | cons p rest ih =>
      intro m
      rcases p with ⟨a, g⟩
      have hstep : addAll m ((a, g) :: rest)
          = addAll ⟨m.accidents ++ [⟨m.id_counter, a, g⟩], m.id_counter + 1, m.model⟩ rest :=
        rfl
      obtain ⟨h1, h2, h3⟩ :=
        ih ⟨m.accidents ++ [⟨m.id_counter, a, g⟩], m.id_counter + 1, m.model⟩
      rw [hstep, mkAccidents]
      refine ⟨?_, ?_, h3⟩
      · rw [h1]; simp
      · rw [h2]; simp [Nat.add_assoc, Nat.add_comm 1 rest.length]

/-- The ids of the records built from a counter run are consecutive. -/
lemma mkAccidents_map_id : ∀ (l : List (Int × Int)) (n : Nat),
    (mkAccidents n l).map Accident.id = List.range' n l.length := by
  intro l
  induction l with
  | nil => intro n; rfl
  | cons p rest ih =>
      intro n
      rcases p with ⟨a, g⟩
      rw [mkAccidents, List.map_cons, List.length_cons, List.range'_succ, ih (n + 1)]

/-- The payloads of the records built from a counter run are the input
pairs, in order. -/
lemma mkAccidents_map_pair : ∀ (l : List (Int × Int)) (n : Nat),
    (mkAccidents n l).map (fun a => (a.annee, a.gravite)) = l := by
  intro l
  induction l with
  | nil => intro n; rfl
  | cons p rest ih =>
      intro n
      rcases p with ⟨a, g⟩
      rw [mkAccidents, List.map_cons, ih (n + 1)]

/-- A slice from 0 to at least the length is the whole list. -/
lemma pySlice_all {α : Type} (l : List α) (stop : Int)
    (h : (l.length : Int) ≤ stop) (h0 : 0 ≤ stop) :
    pySlice l 0 stop = l := by
  simp only [pySlice]
  rw [if_neg (by omega), if_neg (by omega)]
  have hmin : min stop (l.length : Int) = (l.length : Int) := min_eq_right h
  have hmin0 : min (0 : Int) (l.length : Int) = 0 := min_eq_left (by omega)
  rw [hmin, hmin0, Int.toNat_natCast, List.take_length]
  rfl

/-- C3: `add_accident` always appends the record it returns; from a fresh
manager the assigned ids are 1, 2, … in order, the stored payloads are the
inputs in insertion order, and `get_all_accidents` at page 1 with a large
enough page size lists exactly the stored records in that order. -/
theorem add_accident_append_only :
    (∀ (m : Manager) (annee gravite : Int),
        (add_accident m annee gravite).2.accidents
          = m.accidents ++ [(add_accident m annee gravite).1]) ∧
    ∀ l : List (Int × Int),
      ((addAll initManager l).accidents.map Accident.id = List.range' 1 l.length) ∧
      ((addAll initManager l).accidents.map (fun a => (a.annee, a.gravite)) = l) ∧
      ∀ r : ListResult,
        get_all_accidents (addAll initManager l) 1 (max 1 (l.length : Int)) = some r →
        r.items = (addAll initManager l).accidents := by
  refine ⟨fun m annee gravite => rfl, ?_⟩
  intro l
  obtain ⟨h1, _, _⟩ := addAll_accidents l initManager
  have hacc : (addAll initManager l).accidents = mkAccidents 1 l := by
    rw [h1]; rfl
  refine ⟨?_, ?_, ?_⟩
  · rw [hacc, mkAccidents_map_id]
  · rw [hacc, mkAccidents_map_pair]
  · intro r hr
    have hpp : (max 1 (l.length : Int)) ≠ 0 := by
      have : (1 : Int) ≤ max 1 (l.length : Int) := le_max_left 1 _
      omega
    simp only [get_all_accidents, if_neg hpp, Option.some.injEq] at hr
    rw [← hr]
    simp only []
    have hlen : ((addAll initManager l).accidents.length : Int) ≤ max 1 (l.length : Int) := by
      rw [hacc]
      have : (mkAccidents 1 l).length = l.length := by
        have := congrArg List.length (mkAccidents_map_id l 1)
        simpa [List.length_map, List.length_range'] using this
      rw [this]
      exact le_trans (by omega) (le_max_right 1 (l.length : Int))
    have : (1 - 1 : Int) * max 1 (l.length : Int) = 0 := by ring
    rw [this, zero_add]
    exact pySlice_all _ _ hlen (by omega)

/-- Witness for C3: the pagination clause discharged at a concrete
two-element run of adds. -/
theorem add_accident_append_only_witness :
    ListResult.items ⟨[⟨1, 2020, 1⟩, ⟨2, 2021, 5⟩], 2, 1, 1⟩
      = (addAll initManager [(2020, 1), (2021, 5)]).accidents :=
  (add_accident_append_only.2 [(2020, 1), (2021, 5)]).2.2
    ⟨[⟨1, 2020, 1⟩, ⟨2, 2021, 5⟩], 2, 1, 1⟩ (by decide)

/-- Taking `min a length` elements is the same as taking `a` elements, for
a nonnegative integer count. -/
lemma take_intMin {α : Type} (l : List α) (a : Int) :
    l.take ((min a (l.length : Int)).toNat) = l.take a.toNat := by
  rcases le_total a (l.length : Int) with h | h
  · rw [min_eq_left h]
  · rw [min_eq_right h, Int.toNat_natCast, List.take_length]
    rcases le_or_lt 0 a with ha | ha
    · exact (List.take_of_length_le ((Int.le_toNat ha).mpr h)).symm
    · have : (l.length : Int) ≤ 0 := le_trans h (le_of_lt ha)
      have hl : l.length = 0 := by omega
      rw [List.length_eq_zero.mp hl]
      simp

/-- Dropping `min a length` elements from a sublist no longer than the
original is the same as dropping `a` elements, for a nonnegative count. -/
lemma drop_intMin {α : Type} (l l2 : List α) (a : Int) (ha : 0 ≤ a)
    (hlen : l2.length ≤ l.length) :
    l2.drop ((min a (l.length : Int)).toNat) = l2.drop a.toNat := by
  rcases le_total a (l.length : Int) with h | h
  · rw [min_eq_left h]
  · rw [min_eq_right h, Int.toNat_natCast]
    rw [List.drop_eq_nil_of_le hlen,
      List.drop_eq_nil_of_le (le_trans hlen ((Int.le_toNat ha).mpr h))]

/-- For nonnegative bounds the Python slice agrees with the clipped
mathematical slice. -/
lemma pySlice_eq_clipped {α : Type} (l : List α) (start stop : Int)
    (hs : 0 ≤ start) (hstop : 0 ≤ stop) :
    pySlice l start stop = specClippedSlice l start stop := by
  simp only [pySlice, specClippedSlice]
  rw [if_neg (by omega), if_neg (by omega), max_eq_left hstop, max_eq_left hs,
    take_intMin l stop]
  exact drop_intMin l (l.take stop.toNat) start hs (by simp)

/-- The floor-division-plus-carry page count equals the ceiling of
`n / pp`, written `(n + pp - 1) / pp`, for `n ≥ 0` and `pp ≥ 1`. -/
lemma fdiv_carry_eq_ceil (n pp : Int) (_hn : 0 ≤ n) (hpp : 1 ≤ pp) :
    Int.fdiv n pp + (if Int.fmod n pp ≠ 0 then 1 else 0) = (n + pp - 1) / pp := by
  have hpp0 : pp ≠ 0 := by omega
  have hppnn : (0 : Int) ≤ pp := by omega
  rw [Int.fdiv_eq_ediv n hppnn, Int.fmod_eq_emod n hppnn]
  have hqr : pp * (n / pp) + n % pp = n := Int.ediv_add_emod n pp
  have hr0 : 0 ≤ n % pp := Int.emod_nonneg n hpp0
  have hrlt : n % pp < pp := Int.emod_lt_of_pos n (by omega)
  have key : n + pp - 1 = (n % pp + pp - 1) + pp * (n / pp) := by omega
  rw [key, Int.add_mul_ediv_left _ (n / pp) hpp0]
  by_cases hr : n % pp = 0
  · rw [hr]
    have h0 : (0 + pp - 1) / pp = 0 := Int.ediv_eq_zero_of_lt (by omega) (by omega)
    rw [h0]
    simp
  · have hz : (n % pp - 1) / pp = 0 := Int.ediv_eq_zero_of_lt (by omega) (by omega)
    have key2 : n % pp + pp - 1 = (n % pp - 1) + pp * 1 := by omega
    rw [key2, Int.add_mul_ediv_left _ 1 hpp0, hz, if_pos hr]
    omega

/-- Multiplying the ceiling page count back by `pp` covers `n`. -/
lemma ceil_mul_ge (n pp : Int) (_hn : 0 ≤ n) (hpp : 1 ≤ pp) :
    n ≤ ((n + pp - 1) / pp) * pp := by
  have hqr : pp * ((n + pp - 1) / pp) + (n + pp - 1) % pp = n + pp - 1 :=
    Int.ediv_add_emod (n + pp - 1) pp
  have hrlt : (n + pp - 1) % pp < pp := Int.emod_lt_of_pos (n + pp - 1) (by omega)
  have hcomm : pp * ((n + pp - 1) / pp) = ((n + pp - 1) / pp) * pp := mul_comm _ _
  omega

/-- C2 counterexample: on a two-record store, page -1 with per_page 1 makes
`get_all_accidents` return the first record, whereas the clipped slice
`[(page-1)*per_page, page*per_page)` of the sequence is empty. -/
theorem get_all_accidents_clipped_cex :
    (get_all_accidents twoAccMgr (-1) 1).map ListResult.items = some [⟨1, 2020, 1⟩] ∧
    specClippedSlice twoAccMgr.accidents ((-1 - 1) * 1) ((-1) * 1) = [] := by
  decide

/-- C2 (amended to 1-indexed pages): for every store and every `page ≥ 1`,
`per_page ≥ 1`, `get_all_accidents` returns a result whose items are the
clipped slice `[(page-1)*per_page, page*per_page)` of the stored sequence,
whose page count is `ceil(total / per_page)`, and whose items are empty
(with no error) whenever the page is past the last one. -/
theorem get_all_accidents_paginates (m : Manager) (page per_page : Int)
    (hpage : 1 ≤ page) (hpp : 1 ≤ per_page) :
    ∃ r : ListResult,
      get_all_accidents m page per_page = some r ∧
      r.items = specClippedSlice m.accidents ((page - 1) * per_page) (page * per_page) ∧
      r.total = m.accidents.length ∧
      r.pages = specCeilDiv (m.accidents.length : Int) per_page ∧
      r.page = page ∧
      (r.pages < page → r.items = []) := by
  have hpp0 : per_page ≠ 0 := by omega
  have hs : (0 : Int) ≤ (page - 1) * per_page := mul_nonneg (by omega) (by omega)
  have hstop2 : (page - 1) * per_page + per_page = page * per_page := by ring
  refine ⟨_, by rw [get_all_accidents, if_neg hpp0], ?_, rfl, ?_, rfl, ?_⟩
  · simp only [hstop2]
    exact pySlice_eq_clipped m.accidents _ _ hs (by omega)
  · simp only [specCeilDiv]
    exact fdiv_carry_eq_ceil (m.accidents.length : Int) per_page (by omega) hpp
  · intro hlt
    simp only [specCeilDiv, fdiv_carry_eq_ceil (m.accidents.length : Int) per_page
      (by omega) hpp] at hlt
    have hcover : (m.accidents.length : Int)
        ≤ (((m.accidents.length : Int) + per_page - 1) / per_page) * per_page :=
      ceil_mul_ge (m.accidents.length : Int) per_page (by omega) hpp
    have hstart : (m.accidents.length : Int) ≤ (page - 1) * per_page := by
      have hmono : (((m.accidents.length : Int) + per_page - 1) / per_page) * per_page
          ≤ (page - 1) * per_page :=
        mul_le_mul_of_nonneg_right (by omega) (by omega)
      omega
    rw [hstop2, pySlice_eq_clipped m.accidents _ _ hs (by omega), specClippedSlice]
    refine List.drop_eq_nil_of_le ?_
    have h1 : (m.accidents.take (max (page * per_page) 0).toNat).length
        ≤ m.accidents.length := by
      simp [List.length_take]
    have h2 : m.accidents.length ≤ (max ((page - 1) * per_page) 0).toNat := by
      rw [max_eq_left hs]
      exact (Int.le_toNat hs).mpr hstart
    omega

/-- Witness for C2: the amended theorem at page 3, per_page 2 on the
five-record store (the spec's own example: the last record, three pages). -/
theorem get_all_accidents_paginates_witness :
    ∃ r : ListResult,
      get_all_accidents fiveAccMgr 3 2 = some r ∧
      r.items = specClippedSlice fiveAccMgr.accidents ((3 - 1) * 2) (3 * 2) ∧
      r.total = fiveAccMgr.accidents.length ∧
      r.pages = specCeilDiv (fiveAccMgr.accidents.length : Int) 2 ∧
      r.page = 3 ∧
      (r.pages < 3 → r.items = []) :=
  get_all_accidents_paginates fiveAccMgr 3 2 (by decide) (by decide)

/-- C8: with `per_page = 0` the page-count division of
`get_all_accidents` divides by zero, so the call yields the error value
rather than a result, for every store state and page. -/
theorem get_all_accidents_per_page_zero (m : Manager) (page : Int) :
    get_all_accidents m page 0 = none := by
  simp [get_all_accidents]

/-- C9: training on the perfectly linear samples (2020,10), (2021,20),
(2022,30) and predicting year 2023 yields exactly 40. -/
theorem train_predict_linear_exact :
    predict_gravite
        (train_prediction_model (addAll initManager [(2020, 10), (2021, 20), (2022, 30)]))
        2023
      = PredictResult.prediction 2023 40 := by
  have h1 : addAll initManager [(2020, 10), (2021, 20), (2022, 30)]
      = ⟨[⟨1, 2020, 10⟩, ⟨2, 2021, 20⟩, ⟨3, 2022, 30⟩], 4, none⟩ := by
    decide
  rw [h1]
  have h3 : train_prediction_model ⟨[⟨1, 2020, 10⟩, ⟨2, 2021, 20⟩, ⟨3, 2022, 30⟩], 4, none⟩
      = ⟨[⟨1, 2020, 10⟩, ⟨2, 2021, 20⟩, ⟨3, 2022, 30⟩], 4, some ⟨10, -20190⟩⟩ := by
    simp only [train_prediction_model, List.map_cons, List.map_nil, List.length_cons]
    norm_num [fitLinReg, List.zip]
  rw [h3]
  simp only [predict_gravite]
  norm_num [round2, pyRoundHalfEven]

end AccidentAPI
